import Mathlib

/-!
Verification of the listing extraction/cleaning pipeline and proxy routers of
the boingo-api-tester repository, shallowly embedded in Lean.

Conventions of the embedding:
* Python strings are `List Char`; slicing, strip and split mirror Python
  semantics on the inputs that occur.
* JSON values parsed by `json.loads` are the inductive `JValue`; Python
  distinguishes `int`, `float` and `bool` at runtime, so the embedding does too.
* Fallible Python code (validators that can raise, handlers that can raise
  HTTP errors) returns `Except`.
* The tiktoken tokenizer and the LLM are external collaborators: the token
  counter is a parameter `tokLen : List Char → Nat`, and the model response of
  each chunk/record call is an oracle `Nat → Except Unit JValue` giving, per
  unit index, either a failure (network error, malformed JSON) or the parsed
  JSON value.  `datetime.now().year` is a parameter `cy : Int`.
* Recursions that Python expresses with index jumps use an explicit fuel
  argument initialised to the list length; each step consumes at least one
  character, so the fuel never runs out on the initial call.
-/

namespace Boingo

/-- JSON values as produced by `json.loads`, keeping Python's runtime
distinction between null, bool, int, float, string, list and dict. -/
inductive JValue where
  | null
  | bool (b : Bool)
  | int (n : Int)
  | float (q : ℚ)
  | str (s : List Char)
  | arr (elems : List JValue)
  | obj (fields : List (List Char × JValue))

/-- Whitespace characters matched by Python's `\s` and `str.split()` for the
ASCII texts handled here. -/
def isPySpace (c : Char) : Bool :=
  c == ' ' || c == '\t' || c == '\n' || c == '\r' || c == '\x0b' || c == '\x0c'

/-- Length of the maximal prefix whose characters satisfy `p`. -/
def countWhile (p : Char → Bool) : List Char → Nat
  | [] => 0
  | c :: rest => if p c then countWhile p rest + 1 else 0

/-- Case-sensitive prefix test (Python literal matching without IGNORECASE). -/
def startsWithCS : List Char → List Char → Bool
  | [], _ => true
  | _ :: _, [] => false
  | p :: ps, c :: cs => p == c && startsWithCS ps cs

/-- Case-insensitive prefix test (Python literal matching with re.IGNORECASE). -/
def startsWithCI : List Char → List Char → Bool
  | [], _ => true
  | _ :: _, [] => false
  | p :: ps, c :: cs => p.toLower == c.toLower && startsWithCI ps cs

/-- Substring containment, Python's `needle in haystack`. -/
def containsSub (needle : List Char) : List Char → Bool
  | [] => startsWithCS needle []
  | l@(_ :: rest) => startsWithCS needle l || containsSub needle rest

/-- Value of a digit string read in base 10 (`int`/`float` digit parsing). -/
def natOfDigits (l : List Char) : Nat :=
  l.foldl (fun a c => 10 * a + (c.toNat - '0'.toNat)) 0

/-- Python `float(cleaned)` on a string known to contain only digits and dots
(the residue of `re.sub(r'[^\d.]', '', v)`): succeeds when there is at most one
dot and at least one digit, fails (ValueError) otherwise. -/
def pyFloatParse (l : List Char) : Option ℚ :=
  let dots := l.countP (fun c => c == '.')
  if dots == 0 then
    some ((natOfDigits l : ℚ))
  else if dots == 1 then
    let intPart := l.takeWhile (fun c => c != '.')
    let fracPart := (l.dropWhile (fun c => c != '.')).drop 1
    if intPart.isEmpty && fracPart.isEmpty then none
    else some ((natOfDigits intPart : ℚ) + (natOfDigits fracPart : ℚ) / (10 : ℚ) ^ fracPart.length)
  else none

/-- Python `int(q)` on a float: truncation toward zero. -/
def pyTrunc (q : ℚ) : Int := if 0 ≤ q then ⌊q⌋ else ⌈q⌉

/-- First match of `(\d+(\.\d+)?)` in a string, as a rational
(crawleragent.py, validate_rooms). -/
def firstNumToken : List Char → Option ℚ
  | [] => none
  | c :: rest =>
    if c.isDigit then
      let ds := (c :: rest).takeWhile Char.isDigit
      let l2 := (c :: rest).drop ds.length
      match l2 with
      | '.' :: d2 :: _ =>
        if d2.isDigit then
          let fs := (l2.drop 1).takeWhile Char.isDigit
          some ((natOfDigits ds : ℚ) + (natOfDigits fs : ℚ) / (10 : ℚ) ^ fs.length)
        else some ((natOfDigits ds : ℚ))
      | _ => some ((natOfDigits ds : ℚ))
    else firstNumToken rest

/-- First match of `(\d+)` in a string (crawleragent.py, validate_square_footage). -/
def firstIntToken : List Char → Option Nat
  | [] => none
  | c :: rest =>
    if c.isDigit then some (natOfDigits ((c :: rest).takeWhile Char.isDigit))
    else firstIntToken rest

/-- First match of `(\d{4})` in a string (crawleragent.py, validate_year_built). -/
def firstFourDigit : List Char → Option Int
  | [] => none
  | c :: rest =>
    if ((c :: rest).take 4).length == 4 && ((c :: rest).take 4).all Char.isDigit then
      some ((natOfDigits ((c :: rest).take 4) : Int))
    else firstFourDigit rest

/-- PropertyListing.validate_price (crawleragent.py lines 56-65): numbers pass
through as floats, strings are stripped to digits and dots and parsed by
`float` (which raises on a malformed residue such as two dots), everything
else coerces to None.  Python treats `bool` as an `int`. -/
def validate_price (v : JValue) : Except Unit (Option ℚ) :=
  match v with
  | .null => .ok none
  | .bool b => .ok (some (if b then 1 else 0))
  | .int n => .ok (some ((n : ℚ)))
  | .float q => .ok (some q)
  | .str s =>
    let cleaned := s.filter (fun c => c.isDigit || c == '.')
    if cleaned.isEmpty then .ok none
    else
      match pyFloatParse cleaned with
      | some q => .ok (some q)
      | none => .error ()
  | .arr _ => .ok none
  | .obj _ => .ok none

/-- Fallback of PropertyListing.validate_currency (crawleragent.py lines
75-81).  In the source, `values.get('price')` is the already-validated price —
a float or None, never a string — so `isinstance(values.get('price'), str)` is
always false and `price_str` is always the empty string; the `'$'`-inference
branches below are transcribed literally but are dead code, and the fallback
always yields 'MXN'. -/
def currency_fallback (price_data : Option ℚ) : Except Unit (List Char) :=
  let price_str : List Char := []
  if price_str.contains '$' && containsSub "MXN".data price_str then .ok "MXN".data
  else if price_str.contains '$' then .ok "USD".data
  else .ok "MXN".data

/-- PropertyListing.validate_currency (crawleragent.py lines 67-81): an
explicit string code is uppercased and kept when in the closed set, anything
else falls through to `currency_fallback`; a non-string, non-None value makes
`v.upper()` raise.  `price_data` is the validated price from `info.data`. -/
def validate_currency (price_data : Option ℚ) (v : JValue) : Except Unit (List Char) :=
  match v with
  | .null => currency_fallback price_data
  | .str s =>
    let u := s.map Char.toUpper
    if u = "USD".data ∨ u = "MXN".data ∨ u = "EUR".data ∨ u = "CAD".data then .ok u
    else currency_fallback price_data
  | _ => .error ()

/-- PropertyListing.validate_rooms (crawleragent.py lines 92-101). -/
def validate_rooms (v : JValue) : Except Unit (Option ℚ) :=
  match v with
  | .null => .ok none
  | .bool b => .ok (some (if b then 1 else 0))
  | .int n => .ok (some ((n : ℚ)))
  | .float q => .ok (some q)
  | .str s => .ok (firstNumToken s)
  | .arr _ => .ok none
  | .obj _ => .ok none

/-- PropertyListing.validate_square_footage (crawleragent.py lines 103-112):
commas are removed before the first integer token is taken. -/
def validate_square_footage (v : JValue) : Except Unit (Option Int) :=
  match v with
  | .null => .ok none
  | .bool b => .ok (some (if b then 1 else 0))
  | .int n => .ok (some n)
  | .float q => .ok (some (pyTrunc q))
  | .str s => .ok ((firstIntToken (s.filter (fun c => c != ','))).map (fun n => (n : Int)))
  | .arr _ => .ok none
  | .obj _ => .ok none

/-- PropertyListing.validate_year_built (crawleragent.py lines 114-128):
integers are returned unchanged with no range check; strings are searched for
a 4-digit token which is kept only inside [1800, current year]; a bool input
passes the `isinstance(v, int)` test but then fails pydantic's int field
check. -/
def validate_year_built (cy : Int) (v : JValue) : Except Unit (Option Int) :=
  match v with
  | .null => .ok none
  | .bool _ => .error ()
  | .int n => .ok (some n)
  | .str s =>
    match firstFourDigit s with
    | some y => if 1800 ≤ y ∧ y ≤ cy then .ok (some y) else .ok none
    | none => .ok none
  | _ => .ok none

/-- PropertyListing.validate_listing_type (crawleragent.py lines 83-90), an
after-mode validator: the value must already be a string or None, then the
synonyms rent/rental and buy/sale fold to the two canonical values and
anything else drops to None. -/
def validate_listing_type (v : JValue) : Except Unit (Option (List Char)) :=
  match v with
  | .null => .ok none
  | .str s =>
    let low := s.map Char.toLower
    if low = "rent".data ∨ low = "buy".data ∨ low = "sale".data ∨ low = "rental".data then
      .ok (some (if low = "rent".data ∨ low = "rental".data then "rent".data else "buy".data))
    else .ok none
  | _ => .error ()

/-- The PropertyListing record (crawleragent.py lines 38-54), fields in
declaration order; every field is optional with default None/[]. -/
structure PropertyListing where
  address : Option (List Char)
  price : Option ℚ
  currency : Option (List Char)
  bedrooms : Option ℚ
  bathrooms : Option ℚ
  square_footage : Option Int
  property_type : Option (List Char)
  listing_type : Option (List Char)
  year_built : Option Int
  description : Option (List Char)
  amenities : List (List Char)
  url : Option (List Char)
  source : Option (List Char)
  listing_date : Option (List Char)
  image_link : Option (List Char)
  additional_info : List (List Char × JValue)

/-- Dictionary lookup on the parsed JSON object (keys of concrete inputs are
distinct, so first-match lookup coincides with Python dict access). -/
def findField : List (List Char × JValue) → List Char → Option JValue
  | [], _ => none
  | (k, v) :: rest, key => if k = key then some v else findField rest key

/-- Validation of a plain Optional[str] field: pydantic v2 accepts a string or
None and rejects other types without coercion. -/
def strField : Option JValue → Except Unit (Option (List Char))
  | none => .ok none
  | some .null => .ok none
  | some (.str s) => .ok (some s)
  | some _ => .error ()

/-- Validation of the List[str] amenities field: the value must be a list of
strings; the field defaults to [] when absent. -/
def allStrs : List JValue → Except Unit (List (List Char))
  | [] => .ok []
  | .str s :: rest => do
    let r ← allStrs rest
    .ok (s :: r)
  | _ => .error ()

/-- Validation entry point for amenities. -/
def strListField : Option JValue → Except Unit (List (List Char))
  | none => .ok []
  | some (.arr l) => allStrs l
  | some _ => .error ()

/-- Validation of the Dict[str, Any] additional_info field. -/
def objField : Option JValue → Except Unit (List (List Char × JValue))
  | none => .ok []
  | some (.obj f) => .ok f
  | some _ => .error ()

/-- PropertyListing(**fields): each provided field runs through its validator
(fields validate in declaration order; the currency validator sees the
already-validated price through info.data); absent fields take their default
and their before-validators do not run; any validator exception makes the
whole construction raise, mirrored by `Except.error`. -/
def validateListing (cy : Int) (fields : List (List Char × JValue)) :
    Except Unit PropertyListing := do
  let address ← strField (findField fields "address".data)
  let price ← match findField fields "price".data with
    | none => pure none
    | some v => validate_price v
  let currency ← match findField fields "currency".data with
    | none => pure none
    | some v => do
      let c ← validate_currency price v
      pure (some c)
  let bedrooms ← match findField fields "bedrooms".data with
    | none => pure none
    | some v => validate_rooms v
  let bathrooms ← match findField fields "bathrooms".data with
    | none => pure none
    | some v => validate_rooms v
  let square_footage ← match findField fields "square_footage".data with
    | none => pure none
    | some v => validate_square_footage v
  let property_type ← strField (findField fields "property_type".data)
  let listing_type ← match findField fields "listing_type".data with
    | none => pure none
    | some v => validate_listing_type v
  let year_built ← match findField fields "year_built".data with
    | none => pure none
    | some v => validate_year_built cy v
  let description ← strField (findField fields "description".data)
  let amenities ← strListField (findField fields "amenities".data)
  let url ← strField (findField fields "url".data)
  let source ← strField (findField fields "source".data)
  let listing_date ← strField (findField fields "listing_date".data)
  let image_link ← strField (findField fields "image_link".data)
  let additional_info ← objField (findField fields "additional_info".data)
  pure ⟨address, price, currency, bedrooms, bathrooms, square_footage, property_type,
    listing_type, year_built, description, amenities, url, source, listing_date,
    image_link, additional_info⟩

/-- One pass of `re.sub(r'<[^>]+>', '', text)` (clean_text): at each `<`, a
maximal run of at least one non-`>` character followed by `>` is removed,
scanning continues after the match; otherwise the `<` is kept.  The fuel is
the input length; each step consumes at least one character. -/
def removeTagsAux : Nat → List Char → List Char
  | 0, l => l
  | _ + 1, [] => []
  | fuel + 1, '<' :: rest =>
    let k := countWhile (fun c => c != '>') rest
    if 0 < k ∧ k < rest.length then removeTagsAux fuel (rest.drop (k + 1))
    else '<' :: removeTagsAux fuel rest
  | fuel + 1, c :: rest => c :: removeTagsAux fuel rest

/-- The `re.sub(r'http\S+', '', text)` pass of clean_text: a literal `http`
followed by at least one non-whitespace character is removed greedily. -/
def removeUrlsAux : Nat → List Char → List Char
  | 0, l => l
  | _ + 1, [] => []
  | fuel + 1, c :: rest =>
    let l := c :: rest
    if startsWithCS "http".data l then
      let m := countWhile (fun ch => !isPySpace ch) (l.drop 4)
      if 0 < m then removeUrlsAux fuel (l.drop (4 + m))
      else c :: removeUrlsAux fuel rest
    else c :: removeUrlsAux fuel rest

/-- The `re.sub(r'\[.*?\]', '', text)` pass of clean_text: lazy matching from
each `[` to the first `]` with no newline in between (`.` does not match a
newline). -/
def removeBracketsAux : Nat → List Char → List Char
  | 0, l => l
  | _ + 1, [] => []
  | fuel + 1, '[' :: rest =>
    let k := countWhile (fun c => c != ']' && c != '\n') rest
    if (rest.drop k).head? = some ']' then removeBracketsAux fuel (rest.drop (k + 1))
    else '[' :: removeBracketsAux fuel rest
  | fuel + 1, c :: rest => c :: removeBracketsAux fuel rest

/-- Python `text.split()`: split on whitespace runs, discarding empties. -/
def pySplitAux : Nat → List Char → List (List Char)
  | 0, _ => []
  | fuel + 1, l =>
    match l.dropWhile isPySpace with
    | [] => []
    | l' => l'.takeWhile (fun c => !isPySpace c) ::
        pySplitAux fuel (l'.dropWhile (fun c => !isPySpace c))

/-- Python `text.split()` at full fuel. -/
def pySplit (l : List Char) : List (List Char) := pySplitAux l.length l

/-- Python `text.strip()`. -/
def pyStrip (l : List Char) : List Char :=
  ((l.dropWhile isPySpace).reverse.dropWhile isPySpace).reverse

/-- clean_text (crawleragent.py lines 231-235): strip tags, URLs and bracketed
noise, then `' '.join(text.split())`. -/
def clean_text (t : List Char) : List Char :=
  let t1 := removeTagsAux t.length t
  let t2 := removeUrlsAux t1.length t1
  let t3 := removeBracketsAux t2.length t2
  List.intercalate " ".data (pySplit t3)

/-- Python slicing `l[a:b]` with the usual clamping. -/
def pySlice (l : List Char) (a b : Nat) : List Char := (l.take b).drop a

/-- re.finditer for a pattern given as `tryMatch`, which returns the length of
the (necessarily non-empty) match at the head of the remaining text, if any.
Matches are non-overlapping and scanning is leftmost.  The fuel is the text
length; each step consumes at least one character. -/
def finditerAux (tryMatch : List Char → Option Nat) : Nat → List Char → Nat → List (Nat × Nat)
  | 0, _, _ => []
  | _ + 1, [], _ => []
  | fuel + 1, l@(_ :: rest), pos =>
    match tryMatch l with
    | some n =>
      (pos, pos + n) :: finditerAux tryMatch fuel (l.drop (max n 1)) (pos + max n 1)
    | none => finditerAux tryMatch fuel rest (pos + 1)

/-- All matches of a pattern in a text, as (start, end) offset pairs. -/
def finditerStarts (tryMatch : List Char → Option Nat) (l : List Char) : List (Nat × Nat) :=
  finditerAux tryMatch l.length l 0

/-- Listing pattern `\$[\d,]+`. -/
def p_money : List Char → Option Nat
  | '$' :: rest =>
    let k := countWhile (fun c => c.isDigit || c == ',') rest
    if 0 < k then some (1 + k) else none
  | _ => none

/-- Listing pattern `\d+ bed` (IGNORECASE). -/
def p_bed (l : List Char) : Option Nat :=
  let k := countWhile Char.isDigit l
  if 0 < k && startsWithCI " bed".data (l.drop k) then some (k + 4) else none

/-- Listing pattern `\d+ bath` (IGNORECASE). -/
def p_bath (l : List Char) : Option Nat :=
  let k := countWhile Char.isDigit l
  if 0 < k && startsWithCI " bath".data (l.drop k) then some (k + 5) else none

/-- Listing pattern `\d+\s+sq\s*\.?\s*ft` (IGNORECASE); the quantified pieces
are character classes, so greedy matching is deterministic. -/
def p_sqft (l : List Char) : Option Nat :=
  let k := countWhile Char.isDigit l
  if k == 0 then none else
  let l1 := l.drop k
  let w1 := countWhile isPySpace l1
  if w1 == 0 then none else
  let l2 := l1.drop w1
  if !startsWithCI "sq".data l2 then none else
  let l3 := l2.drop 2
  let w2 := countWhile isPySpace l3
  let l4 := l3.drop w2
  let d := if l4.head? = some '.' then 1 else 0
  let l5 := l4.drop d
  let w3 := countWhile isPySpace l5
  let l6 := l5.drop w3
  if startsWithCI "ft".data l6 then some (k + w1 + 2 + w2 + d + w3 + 2) else none

/-- The street-suffix alternation of the address pattern, tried left to right,
returning the suffix length on a case-insensitive prefix match. -/
def streetSuffix (l : List Char) : Option Nat :=
  let alts := ["Street", "St", "Avenue", "Ave", "Road", "Rd", "Boulevard", "Blvd",
    "Drive", "Dr", "Lane", "Ln", "Court", "Ct", "Way", "Place", "Pl"]
  (alts.find? (fun a => startsWithCI a.data l)).map String.length

/-- Greedy backtracking for `[A-Za-z\s]+(...)`: the class consumes as many
characters as possible (at most `run`, at least one) and then the suffix
alternation must match. -/
def streetBacktrack (l2 : List Char) : Nat → Option Nat
  | 0 => none
  | j + 1 =>
    match streetSuffix (l2.drop (j + 1)) with
    | some s => some (j + 1 + s)
    | none => streetBacktrack l2 j

/-- Listing pattern
`\d+\s+[A-Za-z\s]+(Street|St|Avenue|Ave|Road|Rd|Boulevard|Blvd|Drive|Dr|Lane|Ln|Court|Ct|Way|Place|Pl)`. -/
def p_street (l : List Char) : Option Nat :=
  let k := countWhile Char.isDigit l
  if k == 0 then none else
  let l1 := l.drop k
  let w := countWhile isPySpace l1
  if w == 0 then none else
  let l2 := l1.drop w
  let run := countWhile (fun c => c.isAlpha || isPySpace c) l2
  if run == 0 then none else
  (streetBacktrack l2 run).map (fun j => k + w + j)

/-- The listing_patterns list (crawleragent.py lines 239-242), in source order. -/
def listing_patterns : List (List Char → Option Nat) :=
  [p_money, p_bed, p_bath, p_sqft, p_street]

/-- Python `cleaned_text.rfind('.', 0, start)` folded with the
`0 if -1 else +1` adjustment of crawleragent.py line 247: the position just
after the last dot strictly before `start`, or 0. -/
def sentenceStart (ct : List Char) : Nat → Nat
  | 0 => 0
  | s + 1 => if ct.getD s ' ' == '.' then s + 1 else sentenceStart ct s

/-- Candidate boundary collection (crawleragent.py lines 243-250): sentence
starts of every pattern match, deduplicated by the `not in` membership test
starting from [0], then sorted ascending. -/
def collectBoundaries (ct : List Char) : List Nat :=
  let starts := (listing_patterns.map (fun p => finditerStarts p ct)).flatten.map
    (fun m => sentenceStart ct m.1)
  let bs := starts.foldl (fun acc s => if s ∈ acc then acc else acc ++ [s]) [0]
  List.insertionSort (· ≤ ·) bs

/-- The boundary walk of create_smart_chunks (crawleragent.py lines 252-269),
returning spans (start, end) instead of the sliced strings; `prev` is
`boundaries[i-1]`, the remaining list holds `boundaries[i:]`, `cs` is
current_start and `ctk` current_tokens.  When the running count would exceed
max_tokens a chunk is cut at the previous boundary and the next one starts
`overlap_tokens` CHARACTERS earlier (clamped at 0).  The trailing remainder is
flushed when non-empty. -/
def walkSpans (tokLen : List Char → Nat) (ct : List Char) (maxT ov : Nat) :
    Nat → List Nat → Nat → Nat → List (Nat × Nat)
  | _, [], cs, _ =>
    if cs < ct.length then [(cs, ct.length)] else []
  | prev, b :: rest, cs, ctk =>
    let st := tokLen (pyStrip (pySlice ct cs b))
    if maxT < ctk + st then
      (cs, prev) :: walkSpans tokLen ct maxT ov b rest (prev - ov)
        (tokLen (pySlice ct (prev - ov) b) + st)
    else
      walkSpans tokLen ct maxT ov b rest cs (ctk + st)

/-- The chunk spans of create_smart_chunks on the cleaned text. -/
def chunkSpans (tokLen : List Char → Nat) (t : List Char) (maxT ov : Nat) :
    List (Nat × Nat) :=
  let ct := clean_text t
  match collectBoundaries ct with
  | [] => if 0 < ct.length then [(0, ct.length)] else []
  | b0 :: rest => walkSpans tokLen ct maxT ov b0 rest 0 0

/-- create_smart_chunks (crawleragent.py lines 237-270): the chunk spans
sliced out of the cleaned text. -/
def create_smart_chunks (tokLen : List Char → Nat) (t : List Char) (maxT ov : Nat) :
    List (List Char) :=
  let ct := clean_text t
  (chunkSpans tokLen t maxT ov).map (fun sp => pySlice ct sp.1 sp.2)

/-- A concrete stand-in tokenizer counting characters (the real tiktoken
encoder is an external collaborator; the chunker is parameterized over the
counter and the claims are settled at concrete instantiations). -/
def tokLenChars (l : List Char) : Nat := l.length

/-- A concrete stand-in tokenizer counting whitespace-separated words. -/
def tokLenWords (l : List Char) : Nat := (pySplit l).length

/-- Membership test for the source-defaulting step (`'source' not in
listing_data`). -/
def hasKey (fields : List (List Char × JValue)) (key : List Char) : Bool :=
  (findField fields key).isSome

/-- The per-element loop of extract_housing_info (crawleragent.py lines
342-348), run inside the per-chunk try block: non-dict elements are skipped,
a missing source field is defaulted, each dict is validated and appended on
success; a validation exception propagates to the chunk handler, so the
remaining elements of the chunk are abandoned while earlier appends are
kept. -/
def processElements (cy : Int) : List JValue → List PropertyListing → List PropertyListing
  | [], acc => acc
  | e :: rest, acc =>
    match e with
    | .obj fields =>
      let fields' := if hasKey fields "source".data then fields
        else fields ++ [("source".data, .str "Casas y Terrenos".data)]
      match validateListing cy fields' with
      | .ok l => processElements cy rest (acc ++ [l])
      | .error _ => acc
    | _ => processElements cy rest acc

/-- The listings validated out of one chunk: a failed call or unparsable
response contributes nothing (the exception is caught per chunk); a parsed
non-list response is wrapped into a one-element list (crawleragent.py lines
334-348). -/
def chunkContribution (cy : Int) (resp : Except Unit JValue) : List PropertyListing :=
  match resp with
  | .error _ => []
  | .ok j =>
    let listings := match j with
      | .arr l => l
      | x => [x]
    processElements cy listings []

/-- The greedy token-budget prefix of extract_housing_info (crawleragent.py
lines 278-288): chunks are kept while the running total stays within the
budget and the scan stops at the first chunk that would exceed it. -/
def budgetPrefix (tokLen : List Char → Nat) (mt : Nat) : List (List Char) → Nat → List (List Char)
  | [], _ => []
  | c :: rest, total =>
    let t := tokLen c
    if total + t ≤ mt then c :: budgetPrefix tokLen mt rest (total + t)
    else []

/-- The chunk list extract_housing_info actually iterates: smart chunks at
the default limits 500/50, optionally truncated to max_chunks and to the
token budget (crawleragent.py lines 272-288). -/
def retainedChunks (tokLen : List Char → Nat) (t : List Char)
    (max_chunks max_total_tokens : Option Nat) : List (List Char) :=
  let chunks := create_smart_chunks tokLen t 500 50
  let chunks := match max_chunks with
    | some m => if 0 < m then chunks.take m else chunks
    | none => chunks
  match max_total_tokens with
  | some mt => if 0 < mt then budgetPrefix tokLen mt chunks 0 else chunks
  | none => chunks

/-- The chunk loop of extract_housing_info, accumulating all_housing_info
across chunks; the per-chunk try/except makes each chunk contribute
independently (the delay only spends time and is not modelled). -/
def extractLoop (cy : Int) (oracle : Nat → Except Unit JValue) :
    Nat → List (List Char) → List PropertyListing → List PropertyListing
  | _, [], acc => acc
  | i, _ :: rest, acc => extractLoop cy oracle (i + 1) rest (acc ++ chunkContribution cy (oracle i))

/-- extract_housing_info (crawleragent.py lines 272-351): chunk the text,
truncate, then run the per-chunk extraction loop.  The LLM call, fenced-block
extraction and json.loads of chunk `i` are abstracted as `oracle i`. -/
def extract_housing_info (tokLen : List Char → Nat) (cy : Int) (t : List Char)
    (max_chunks max_total_tokens : Option Nat) (oracle : Nat → Except Unit JValue) :
    List PropertyListing :=
  extractLoop cy oracle 0 (retainedChunks tokLen t max_chunks max_total_tokens) []

/-- Modelled from the spec (section 4.4): the output of a chunk-fault-isolated
orchestrator is the concatenation, in chunk order, of every retained chunk's
independent contribution. -/
def specChunkwiseExtract (cy : Int) (oracle : Nat → Except Unit JValue) :
    Nat → List (List Char) → List PropertyListing
  | _, [] => []
  | i, _ :: rest => chunkContribution cy (oracle i) ++ specChunkwiseExtract cy oracle (i + 1) rest

/-- Python truthiness of a parsed JSON value (`if cleaned_data:`). -/
def jTruthy : JValue → Bool
  | .null => false
  | .bool b => b
  | .int n => n != 0
  | .float q => q != 0
  | .str s => !s.isEmpty
  | .arr l => !l.isEmpty
  | .obj f => !f.isEmpty

/-- The per-record loop of clean_all_listings (cleaner_agent.py lines
93-116, identical in clean_all_listings_fully_sync lines 135-158): the
cleaning call (with its retries), fenced-block extraction and json.loads for
record `i` are abstracted as `oracle i`.  A failed call skips the record; a
falsy parsed value (such as the empty object) discards it; a truthy non-dict
makes `PropertyListing(**...)` raise TypeError, caught per record; a truthy
dict is validated, appended on success and skipped on a validation error. -/
def cleanLoop (cy : Int) (oracle : Nat → Except Unit JValue) :
    Nat → List JValue → List PropertyListing → List PropertyListing
  | _, [], acc => acc
  | i, _ :: rest, acc =>
    match oracle i with
    | .error _ => cleanLoop cy oracle (i + 1) rest acc
    | .ok j =>
      if jTruthy j then
        match j with
        | .obj fields =>
          match validateListing cy fields with
          | .ok l => cleanLoop cy oracle (i + 1) rest (acc ++ [l])
          | .error _ => cleanLoop cy oracle (i + 1) rest acc
        | _ => cleanLoop cy oracle (i + 1) rest acc
      else cleanLoop cy oracle (i + 1) rest acc

/-- clean_all_listings over an already-loaded list of raw records. -/
def clean_all_listings (cy : Int) (oracle : Nat → Except Unit JValue)
    (raws : List JValue) : List PropertyListing :=
  cleanLoop cy oracle 0 raws []

/-- An upstream HTTP response as seen by the proxy routers: status code, raw
body text, and the result of `response.json()` (error message on a decode
failure). -/
structure HttpResp where
  status : Nat
  text : List Char
  jsonBody : Except (List Char) JValue

/-- The Python exceptions that flow through a router body. -/
inductive PyExc where
  | httpError (code : Nat) (detail : List Char)
  | requestError (msg : List Char)
  | jsonDecodeError (msg : List Char)

/-- Python `str(e)` on those exceptions; starlette's HTTPException prints as
`"{status_code}: {detail}"`. -/
def strPyExc : PyExc → List Char
  | .httpError c d => (toString c).data ++ ": ".data ++ d
  | .requestError m => m
  | .jsonDecodeError m => m

/-- The body of GET /scraping-results (results.py lines 19-33) before the
blanket exception handler: a network failure propagates, a non-2xx status
raises HTTPException(status, body), otherwise the JSON body is returned. -/
def get_all_results_inner (upstream : Except (List Char) HttpResp) : Except PyExc JValue :=
  match upstream with
  | .error m => .error (.requestError m)
  | .ok r =>
    if r.status < 200 ∨ 300 ≤ r.status then .error (.httpError r.status r.text)
    else
      match r.jsonBody with
      | .ok j => .ok j
      | .error m => .error (.jsonDecodeError m)

/-- get_all_results (results.py lines 19-35): the outer `except Exception`
catches every exception — including the HTTPException just raised for a
non-2xx upstream status — and re-raises it as a 500 with a stringified
detail. -/
def get_all_results (upstream : Except (List Char) HttpResp) :
    Except (Nat × List Char) JValue :=
  match get_all_results_inner upstream with
  | .ok j => .ok j
  | .error e => .error (500, "Error getting results: ".data ++ strPyExc e)

/-- get_all_targets (targets.py lines 19-35), identical shape to
get_all_results up to the error prefix. -/
def get_all_targets (upstream : Except (List Char) HttpResp) :
    Except (Nat × List Char) JValue :=
  match get_all_results_inner upstream with
  | .ok j => .ok j
  | .error e => .error (500, "Error getting targets: ".data ++ strPyExc e)

/-- The body of POST /scraping-results (results.py lines 107-142) before the
blanket handler: the inner try catches only httpx.RequestError and converts
it to HTTPException(500, "Network error: ..."); a status outside {200, 201}
raises HTTPException(status, "API Error: " + detail) where the detail is the
pretty-printed JSON body when it parses, else the raw text (`pretty` stands
for `json.dumps(..., indent=2)`). -/
def create_result_inner (pretty : JValue → List Char)
    (upstream : Except (List Char) HttpResp) : Except PyExc JValue :=
  match upstream with
  | .error m => .error (.httpError 500 ("Network error: ".data ++ m))
  | .ok r =>
    if r.status ≠ 200 ∧ r.status ≠ 201 then
      .error (.httpError r.status ("API Error: ".data ++
        (match r.jsonBody with
          | .ok j => pretty j
          | .error _ => r.text)))
    else
      match r.jsonBody with
      | .ok j => .ok j
      | .error m => .error (.jsonDecodeError m)

/-- create_result (results.py lines 88-150): as with the GET endpoints, the
outer `except Exception` swallows the HTTPException carrying the upstream
status and re-raises a 500. -/
def create_result (pretty : JValue → List Char)
    (upstream : Except (List Char) HttpResp) : Except (Nat × List Char) JValue :=
  match create_result_inner pretty upstream with
  | .ok j => .ok j
  | .error e => .error (500, "Error creating result: ".data ++ strPyExc e)

/-- Whether a JSON value is an explicit valid currency code (used to state
the amended currency claim). -/
def isValidCurrencyCode : JValue → Bool
  | .str s =>
    let u := s.map Char.toUpper
    u == "USD".data || u == "MXN".data || u == "EUR".data || u == "CAD".data
  | _ => false

/-! Theorems.  Each claim of the specification is settled below; helper
lemmas carry no claim names. -/

/-- Any successful `float()` parse of a digits-and-dots residue is
non-negative. -/
theorem pyFloatParse_nonneg (l : List Char) (q : ℚ) (h : pyFloatParse l = some q) :
    0 ≤ q := by
  simp only [pyFloatParse] at h
  split at h
  · cases h
    positivity
  · split at h
    · split at h
      · cases h
      · cases h
        positivity
    · cases h

/-- The currency fallback always evaluates to 'MXN'. -/
theorem currency_fallback_eq (pd : Option ℚ) : currency_fallback pd = .ok "MXN".data := rfl

/-- C7: for every string input to price coercion the result is non-negative or
absent, with "$1,250.50 MXN" coercing to 1250.50 and "N/A" coercing to
absent. -/
theorem c7_price_coercion :
    validate_price (.str "$1,250.50 MXN".data) = .ok (some ((2501 : ℚ) / 2)) ∧
    validate_price (.str "N/A".data) = .ok none ∧
    ∀ (s : List Char) (q : ℚ), validate_price (.str s) = .ok (some q) → 0 ≤ q := by
  have h1 : validate_price (.str "$1,250.50 MXN".data) =
      .ok (some (((1250 : Nat) : ℚ) + ((50 : Nat) : ℚ) / 10 ^ 2)) := rfl
  refine ⟨?_, rfl, ?_⟩
  · rw [h1]
    norm_num
  intro s q h
  simp only [validate_price] at h
  split at h
  · cases h
  · split at h
    · cases h
      exact pyFloatParse_nonneg _ _ (by assumption)
    · cases h

/-- Witness for C7 at the concrete input "$1,250.50 MXN". -/
theorem c7_price_coercion_witness : (0 : ℚ) ≤ (2501 : ℚ) / 2 :=
  c7_price_coercion.2.2 "$1,250.50 MXN".data ((2501 : ℚ) / 2) c7_price_coercion.1

/-- C10: the price validator is not total on strings: "1.2.3" leaves a residue
with two decimal points, float() raises, and validation of the whole record
fails instead of dropping the field to absent. -/
theorem c10_price_partial :
    validate_price (.str "1.2.3".data) = .error () ∧
    validateListing 2026 [("price".data, .str "1.2.3".data)] = .error () :=
  ⟨rfl, rfl⟩

/-- C6 is refuted on integer inputs: the year 2105 given as an int is passed
through unchanged although it lies outside [1800, 2026]. -/
theorem c6_counterexample :
    validate_year_built 2026 (.int 2105) = .ok (some 2105) ∧
    ¬(1800 ≤ (2105 : Int) ∧ (2105 : Int) ≤ 2026) :=
  ⟨rfl, by decide⟩

/-- C6 amended: string inputs are constrained to [1800, current year] (out of
range drops to absent), but integer inputs are passed through without any
range check. -/
theorem c6_year_built_range :
    (∀ (cy n : Int), validate_year_built cy (.int n) = .ok (some n)) ∧
    ∀ (cy : Int) (s : List Char) (y : Int),
      validate_year_built cy (.str s) = .ok (some y) → 1800 ≤ y ∧ y ≤ cy := by
  constructor
  · intro cy n
    rfl
  · intro cy s y h
    simp only [validate_year_built] at h
    split at h
    · split at h
      · cases h
        assumption
      · cases h
    · cases h

/-- Witness for C6 amended at the string input "built 1950" with current year
2026. -/
theorem c6_year_built_range_witness : (1800 : Int) ≤ 1950 ∧ (1950 : Int) ≤ 2026 :=
  c6_year_built_range.2 2026 "built 1950".data 1950 rfl

/-- C5 is refuted: with a raw price string "$100" and no (or an invalid)
currency code, the coerced currency is absent (respectively 'MXN'), never the
'USD' the claim's symbol-inference rule predicts. -/
theorem c5_counterexample :
    (validateListing 2026 [("price".data, .str "$100".data),
        ("address".data, .str "X".data)]).map (fun r => r.currency) = .ok none ∧
    (validateListing 2026 [("price".data, .str "$100".data),
        ("currency".data, .str "XYZ".data)]).map (fun r => r.currency) =
      .ok (some "MXN".data) ∧
    some "MXN".data ≠ some "USD".data := by
  refine ⟨rfl, rfl, by decide⟩

/-- C5 amended: whenever the currency validator runs and succeeds its output
is in the closed set {USD, MXN, EUR, CAD}, and when the provided value is not
a valid explicit code the result is always 'MXN' regardless of the raw price
string (the price seen through info.data is already coerced, so the
symbol-inference branch never fires); an absent field stays absent. -/
theorem c5_currency_closed_set :
    ∀ (pd : Option ℚ) (v : JValue) (c : List Char),
      validate_currency pd v = .ok c →
      (c = "USD".data ∨ c = "MXN".data ∨ c = "EUR".data ∨ c = "CAD".data) ∧
      (isValidCurrencyCode v = false → c = "MXN".data) := by
  intro pd v c h
  cases v with
  | null =>
    rw [validate_currency, currency_fallback_eq] at h
    cases h
    exact ⟨Or.inr (Or.inl rfl), fun _ => rfl⟩
  | str s =>
    simp only [validate_currency] at h
    split at h
    · cases h
      refine ⟨by assumption, ?_⟩
      intro hf
      exfalso
      rename_i hcond
      rcases hcond with h1 | h1 | h1 | h1 <;>
        simp [isValidCurrencyCode, h1] at hf
    · rw [currency_fallback_eq] at h
      cases h
      exact ⟨Or.inr (Or.inl rfl), fun _ => rfl⟩
  | bool b => cases h
  | int n => cases h
  | float q => cases h
  | arr l => cases h
  | obj f => cases h

/-- Witness for C5 amended at the invalid explicit code "xyz". -/
theorem c5_currency_closed_set_witness :
    ("MXN".data = "USD".data ∨ "MXN".data = "MXN".data ∨
      "MXN".data = "EUR".data ∨ "MXN".data = "CAD".data) ∧
    (isValidCurrencyCode (.str "xyz".data) = false → "MXN".data = "MXN".data) :=
  c5_currency_closed_set none (.str "xyz".data) "MXN".data rfl

/-- C1 is refuted: a chunk whose response parses to a list holding one empty
object yields an output record in which every required field is absent — the
raw object was unrecoverable on all nine required fields, yet it appears in
the extraction output. -/
theorem c1_counterexample :
    (extract_housing_info tokLenChars 2026 "hello".data .none .none
        (fun _ => .ok (.arr [.obj []]))).map
      (fun r => (r.address, r.price, r.currency, r.bedrooms, r.bathrooms,
        r.listing_type, r.property_type, r.description, r.image_link)) =
      [(none, none, none, none, none, none, none, none, none)] ∧
    (extract_housing_info tokLenChars 2026 "hello".data .none .none
        (fun _ => .ok (.arr [.obj []]))).length = 1 :=
  ⟨rfl, rfl⟩

/-- C1 amended: required-field completeness is not enforced by the pipeline —
an object with every required field missing still validates (all fields
absent) and is included in the extraction output; an element is dropped only
when some provided field fails coercion with an exception. -/
theorem c1_required_fields_not_enforced :
    ∀ cy : Int,
      (extract_housing_info tokLenChars cy "hello".data .none .none
          (fun _ => .ok (.arr [.obj []]))).map
        (fun r => (r.address, r.price, r.currency, r.bedrooms, r.bathrooms,
          r.listing_type, r.property_type, r.description, r.image_link)) =
        [(none, none, none, none, none, none, none, none, none)] :=
  fun _ => rfl

/-- C2 is refuted on the per-element part: in a chunk parsing to a failing
element followed by a valid one, the valid element is NOT appended — the
schema exception aborts the rest of the chunk — although the same valid
element alone is extracted. -/
theorem c2_counterexample :
    extract_housing_info tokLenChars 2026 "hi".data .none .none
      (fun _ => .ok (.arr [.obj [("currency".data, .int 5)],
        .obj [("address".data, .str "A".data)]])) = [] ∧
    (extract_housing_info tokLenChars 2026 "hi".data .none .none
      (fun _ => .ok (.arr [.obj [("address".data, .str "A".data)]]))).length = 1 :=
  ⟨rfl, rfl⟩

/-- The accumulator form of the extraction loop equals the concatenation of
per-chunk contributions. -/
theorem extractLoop_eq_spec (cy : Int) (oracle : Nat → Except Unit JValue) :
    ∀ (cs : List (List Char)) (i : Nat) (acc : List PropertyListing),
      extractLoop cy oracle i cs acc = acc ++ specChunkwiseExtract cy oracle i cs := by
  intro cs
  induction cs with
  | nil => intro i acc; simp [extractLoop, specChunkwiseExtract]
  | cons c rest ih =>
    intro i acc
    simp [extractLoop, specChunkwiseExtract, ih, List.append_assoc]

/-- C2 amended, the part that holds: the orchestrator is chunk-fault-isolated
— its output is the concatenation, in chunk order, of independent per-chunk
contributions, each a function of that chunk's own response alone, and a
failed chunk (network error, malformed JSON) contributes nothing.  Within one
chunk, non-dict elements are skipped individually, but an element whose
validation raises aborts the remaining elements of that chunk. -/
theorem c2_chunk_isolated :
    (∀ (tokLen : List Char → Nat) (cy : Int) (t : List Char)
        (mc mtt : Option Nat) (oracle : Nat → Except Unit JValue),
      extract_housing_info tokLen cy t mc mtt oracle =
        specChunkwiseExtract cy oracle 0 (retainedChunks tokLen t mc mtt)) ∧
    ∀ cy : Int, chunkContribution cy (.error ()) = [] := by
  constructor
  · intro tokLen cy t mc mtt oracle
    rw [extract_housing_info, extractLoop_eq_spec]
    rfl
  · intro cy
    rfl

/-- C8: three raw records where the middle one cleans to the empty object
produce exactly the two surviving records, in input order. -/
theorem c8_cleaning_discard_order (cy : Int) (oracle : Nat → Except Unit JValue)
    (r0 r1 r2 : JValue) (f0 f2 : List (List Char × JValue)) (l0 l2 : PropertyListing)
    (h0 : oracle 0 = .ok (.obj f0)) (h1 : oracle 1 = .ok (.obj []))
    (h2 : oracle 2 = .ok (.obj f2))
    (hf0 : f0 ≠ []) (hf2 : f2 ≠ [])
    (hv0 : validateListing cy f0 = .ok l0) (hv2 : validateListing cy f2 = .ok l2) :
    clean_all_listings cy oracle [r0, r1, r2] = [l0, l2] := by
  have t0 : f0.isEmpty = false := by
    cases f0 with
    | nil => exact absurd rfl hf0
    | cons a b => rfl
  have t2 : f2.isEmpty = false := by
    cases f2 with
    | nil => exact absurd rfl hf2
    | cons a b => rfl
  simp [clean_all_listings, cleanLoop, h0, h1, h2, t0, t2, hv0, hv2, jTruthy]

/-- Witness for C8 at a concrete batch of three records. -/
theorem c8_cleaning_discard_order_witness :
    clean_all_listings 2026
      (fun i => if i = 0 then .ok (.obj [("address".data, .str "A".data)])
        else if i = 1 then .ok (.obj [])
        else .ok (.obj [("address".data, .str "B".data)]))
      [.null, .null, .null] =
      [⟨some "A".data, none, none, none, none, none, none, none, none, none, [],
          none, none, none, none, []⟩,
        ⟨some "B".data, none, none, none, none, none, none, none, none, none, [],
          none, none, none, none, []⟩] :=
  c8_cleaning_discard_order 2026 _ .null .null .null
    [("address".data, .str "A".data)] [("address".data, .str "B".data)] _ _
    rfl rfl rfl (by simp) (by simp) rfl rfl

/-- finditerAux on an empty text yields no matches at any fuel. -/
theorem finditerAux_nil (tm : List Char → Option Nat) (fuel pos : Nat) :
    finditerAux tm fuel [] pos = [] := by
  cases fuel <;> rfl

/-- Every match start returned by the scanner lies inside the scanned text. -/
theorem finditerAux_start_lt (tm : List Char → Option Nat) :
    ∀ (fuel : Nat) (l : List Char) (pos : Nat) (sp : Nat × Nat),
      sp ∈ finditerAux tm fuel l pos → sp.1 < pos + l.length := by
  intro fuel
  induction fuel with
  | zero =>
    intro l pos sp h
    simp [finditerAux] at h
  | succ fuel ih =>
    intro l pos sp h
    cases l with
    | nil => simp [finditerAux] at h
    | cons c rest =>
      simp only [finditerAux] at h
      split at h
      · rename_i n htm
        rcases List.mem_cons.mp h with h1 | h1
        · subst h1
          simp
        · by_cases hm : (c :: rest).length ≤ max n 1
          · rw [List.drop_eq_nil_of_le hm, finditerAux_nil] at h1
            simp at h1
          · have hlt := ih _ _ _ h1
            rw [List.length_drop] at hlt
            simp only [List.length_cons] at hlt hm ⊢
            omega
      · have hlt := ih _ _ _ h
        simp only [List.length_cons]
        omega

/-- The sentence start is never past the match start. -/
theorem sentenceStart_le (ct : List Char) : ∀ s, sentenceStart ct s ≤ s := by
  intro s
  induction s with
  | zero => exact Nat.le_refl 0
  | succ s ih =>
    rw [sentenceStart]
    split
    · exact Nat.le_refl _
    · exact Nat.le_succ_of_le ih

/-- Membership in the dedup-by-insertion fold comes from the seed or the
inserted list. -/
theorem foldl_insert_mem :
    ∀ (xs : List Nat) (acc : List Nat) (x : Nat),
      x ∈ xs.foldl (fun a s => if s ∈ a then a else a ++ [s]) acc →
      x ∈ acc ∨ x ∈ xs := by
  intro xs
  induction xs with
  | nil =>
    intro acc x h
    exact Or.inl h
  | cons s rest ih =>
    intro acc x h
    rcases ih _ x h with h1 | h1
    · replace h1 : x ∈ (if s ∈ acc then acc else acc ++ [s]) := h1
      split at h1
      · exact Or.inl h1
      · rcases List.mem_append.mp h1 with h2 | h2
        · exact Or.inl h2
        · simp at h2
          subst h2
          exact Or.inr (List.mem_cons_self _ _)
    · exact Or.inr (List.mem_cons_of_mem _ h1)

/-- The dedup-by-insertion fold preserves nodup. -/
theorem foldl_insert_nodup :
    ∀ (xs : List Nat) (acc : List Nat), acc.Nodup →
      (xs.foldl (fun a s => if s ∈ a then a else a ++ [s]) acc).Nodup := by
  intro xs
  induction xs with
  | nil =>
    intro acc h
    exact h
  | cons s rest ih =>
    intro acc h
    refine ih _ ?_
    show (if s ∈ acc then acc else acc ++ [s]).Nodup
    split
    · exact h
    · rw [List.nodup_append]
      rename_i hns
      refine ⟨h, List.nodup_singleton s, ?_⟩
      intro a ha hs
      simp at hs
      subst hs
      exact hns ha

/-- Every candidate boundary lies inside the cleaned text. -/
theorem collectBoundaries_le (ct : List Char) :
    ∀ b ∈ collectBoundaries ct, b ≤ ct.length := by
  intro b hb
  unfold collectBoundaries at hb
  have hb2 : b ∈ _ := (List.perm_insertionSort (· ≤ ·) _).subset hb
  rcases foldl_insert_mem _ _ _ hb2 with h | h
  · simp at h
    subst h
    exact Nat.zero_le _
  · rcases List.mem_map.mp h with ⟨m, hm, rfl⟩
    rcases List.mem_flatten.mp hm with ⟨ms, hms, hmem⟩
    rcases List.mem_map.mp hms with ⟨p, _, rfl⟩
    have := finditerAux_start_lt p _ _ _ _ hmem
    have := sentenceStart_le ct m.1
    omega

/-- The candidate boundary list is strictly increasing. -/
theorem collectBoundaries_pairwise (ct : List Char) :
    (collectBoundaries ct).Pairwise (· < ·) := by
  unfold collectBoundaries
  have hsorted : (collectBoundaries ct).Sorted (· ≤ ·) := List.sorted_insertionSort _ _
  have hnodup : (collectBoundaries ct).Nodup := by
    unfold collectBoundaries
    exact ((List.perm_insertionSort (· ≤ ·) _).nodup_iff).mpr
      (foldl_insert_nodup _ _ (List.nodup_singleton 0))
  exact List.Sorted.lt_of_le (by unfold collectBoundaries at hsorted; exact hsorted)
    (by unfold collectBoundaries at hnodup; exact hnodup)

/-- The first span the walk emits (if any) starts at the current chunk
start. -/
theorem walkSpans_head_start (tokLen : List Char → Nat) (ct : List Char) (maxT ov : Nat) :
    ∀ (rest : List Nat) (prev cs ctk : Nat) (sp : Nat × Nat),
      (walkSpans tokLen ct maxT ov prev rest cs ctk).head? = some sp → sp.1 = cs := by
  intro rest
  induction rest with
  | nil =>
    intro prev cs ctk sp h
    simp only [walkSpans] at h
    split at h
    · cases h
      rfl
    · cases h
  | cons b r ih =>
    intro prev cs ctk sp h
    simp only [walkSpans] at h
    split at h
    · cases h
      rfl
    · exact ih b cs _ sp h

/-- Once the chunk start is strictly before the previous boundary, every span
the walk emits is non-degenerate and ends inside the text. -/
theorem walkSpans_all_good (tokLen : List Char → Nat) (ct : List Char) (maxT ov : Nat) :
    ∀ (rest : List Nat) (prev cs ctk : Nat),
      cs < prev → (∀ b ∈ rest, prev < b) → rest.Pairwise (· < ·) →
      prev ≤ ct.length → (∀ b ∈ rest, b ≤ ct.length) →
      ∀ sp ∈ walkSpans tokLen ct maxT ov prev rest cs ctk,
        sp.1 < sp.2 ∧ sp.2 ≤ ct.length := by
  intro rest
  induction rest with
  | nil =>
    intro prev cs ctk hcs _ _ hprev _ sp hsp
    simp only [walkSpans] at hsp
    split at hsp
    · rcases List.mem_singleton.mp hsp with rfl
      exact ⟨by assumption, Nat.le_refl _⟩
    · simp at hsp
  | cons b r ih =>
    intro prev cs ctk hcs hall hpw hprev hble sp hsp
    have hb : prev < b := hall b (List.mem_cons_self _ _)
    have hbl : b ≤ ct.length := hble b (List.mem_cons_self _ _)
    have hpw' := List.pairwise_cons.mp hpw
    simp only [walkSpans] at hsp
    split at hsp
    · rcases List.mem_cons.mp hsp with rfl | h1
      · exact ⟨hcs, hprev⟩
      · refine ih b (prev - ov) _ (by omega) hpw'.1 hpw'.2 hbl
          (fun b' hb' => hble b' (List.mem_cons_of_mem _ hb')) sp h1
    · refine ih b cs _ (by omega) hpw'.1 hpw'.2 hbl
        (fun b' hb' => hble b' (List.mem_cons_of_mem _ hb')) sp hsp

/-- Every span after the first one the walk emits is non-degenerate and ends
inside the text (the very first span may be empty when the first segment
alone exceeds the token limit). -/
theorem walkSpans_tail_good (tokLen : List Char → Nat) (ct : List Char) (maxT ov : Nat) :
    ∀ (rest : List Nat) (prev cs ctk : Nat),
      cs ≤ prev → (∀ b ∈ rest, prev < b) → rest.Pairwise (· < ·) →
      prev ≤ ct.length → (∀ b ∈ rest, b ≤ ct.length) →
      ∀ sp ∈ (walkSpans tokLen ct maxT ov prev rest cs ctk).tail,
        sp.1 < sp.2 ∧ sp.2 ≤ ct.length := by
  intro rest
  induction rest with
  | nil =>
    intro prev cs ctk _ _ _ _ _ sp hsp
    simp only [walkSpans] at hsp
    split at hsp <;> simp at hsp
  | cons b r ih =>
    intro prev cs ctk hcs hall hpw hprev hble sp hsp
    have hb : prev < b := hall b (List.mem_cons_self _ _)
    have hbl : b ≤ ct.length := hble b (List.mem_cons_self _ _)
    have hpw' := List.pairwise_cons.mp hpw
    simp only [walkSpans] at hsp
    split at hsp
    · rw [List.tail_cons] at hsp
      refine walkSpans_all_good tokLen ct maxT ov r b (prev - ov) _ (by omega)
        hpw'.1 hpw'.2 hbl (fun b' hb' => hble b' (List.mem_cons_of_mem _ hb')) sp hsp
    · exact ih b cs _ (by omega) hpw'.1 hpw'.2 hbl
        (fun b' hb' => hble b' (List.mem_cons_of_mem _ hb')) sp hsp

/-- Consecutive spans emitted by the walk satisfy the character-overlap
relation: each next span starts overlap_tokens characters (clamped at 0)
before the previous cut. -/
theorem walkSpans_chain (tokLen : List Char → Nat) (ct : List Char) (maxT ov : Nat) :
    ∀ (rest : List Nat) (prev cs ctk : Nat),
      List.Chain' (fun a b : Nat × Nat => b.1 = a.2 - ov)
        (walkSpans tokLen ct maxT ov prev rest cs ctk) := by
  intro rest
  induction rest with
  | nil =>
    intro prev cs ctk
    simp only [walkSpans]
    split
    · exact List.chain'_singleton _
    · exact List.chain'_nil
  | cons b r ih =>
    intro prev cs ctk
    simp only [walkSpans]
    split
    · refine List.chain'_cons'.mpr ⟨?_, ih b (prev - ov) _⟩
      intro y hy
      have := walkSpans_head_start tokLen ct maxT ov r b (prev - ov) _ y hy
      simpa using this
    · exact ih b cs _

/-- A Python slice with start before both the end and the text length is
non-empty. -/
theorem pySlice_ne_nil (ct : List Char) (a b : Nat) (hab : a < b) (hal : a < ct.length) :
    pySlice ct a b ≠ [] := by
  have hlen : (pySlice ct a b).length = min b ct.length - a := by
    simp [pySlice]
  intro hnil
  rw [hnil] at hlen
  simp at hlen
  omega

/-- C3 is refuted: when the first inter-boundary segment alone exceeds
max_tokens, the chunker commits `text[0:0]` and emits a zero-length chunk
(here the 600-character first sentence exceeds the default 500-token limit
under the character-counting tokenizer model). -/
theorem c3_counterexample :
    ([] : List Char) ∈ create_smart_chunks tokLenChars "aaaaa. $1 b".data 3 50 := by
  decide

/-- C3 amended: every chunk after the first is a non-empty string; only the
first chunk can be empty, which happens when the first inter-boundary segment
already exceeds max_tokens. -/
theorem c3_tail_nonempty (tokLen : List Char → Nat) (t : List Char) (maxT ov : Nat) :
    ∀ c ∈ (create_smart_chunks tokLen t maxT ov).tail, c ≠ [] := by
  intro c hc
  simp only [create_smart_chunks] at hc
  rw [← List.map_tail] at hc
  rcases List.mem_map.mp hc with ⟨sp, hsp, rfl⟩
  have hgood : sp.1 < sp.2 ∧ sp.2 ≤ (clean_text t).length := by
    simp only [chunkSpans] at hsp
    cases hbs : collectBoundaries (clean_text t) with
    | nil =>
      rw [hbs] at hsp
      have hsp' : sp ∈ (if 0 < (clean_text t).length then
          [(0, (clean_text t).length)] else []).tail := hsp
      split at hsp' <;> simp at hsp'
    | cons b0 rest =>
      rw [hbs] at hsp
      have hsp' : sp ∈ (walkSpans tokLen (clean_text t) maxT ov b0 rest 0 0).tail := hsp
      have hpw := collectBoundaries_pairwise (clean_text t)
      rw [hbs] at hpw
      have hle := collectBoundaries_le (clean_text t)
      simp only [hbs] at hle
      have hpw' := List.pairwise_cons.mp hpw
      exact walkSpans_tail_good tokLen (clean_text t) maxT ov rest b0 0 0
        (Nat.zero_le _) hpw'.1 hpw'.2 (hle b0 (List.mem_cons_self _ _))
        (fun b hb => hle b (List.mem_cons_of_mem _ hb)) sp hsp'
  exact pySlice_ne_nil _ _ _ hgood.1 (lt_of_lt_of_le hgood.1 hgood.2)

/-- Witness for C3 amended: the second chunk of a two-chunk split is
non-empty. -/
theorem c3_tail_nonempty_witness : "qq. $7 ww. $8 rr".data ≠ [] :=
  c3_tail_nonempty tokLenChars "qq. $7 ww. $8 rr".data 5 50
    "qq. $7 ww. $8 rr".data (by decide)

/-- C4 is refuted: after the chunk committed at cut position 3 with
overlap_tokens = 2, the next chunk starts at character position 1, and the
trailing text between position 1 and the cut measures 1 token under the
word-counting tokenizer model, not the required 2 — the overlap is sized in
characters, not tokens. -/
theorem c4_counterexample :
    chunkSpans tokLenWords "aa. $1 bb. $2 cc".data 2 2 = [(0, 3), (1, 16)] ∧
    tokLenWords (pySlice (clean_text "aa. $1 bb. $2 cc".data) 1 3) = 1 ∧
    (1 : Nat) ≠ 2 :=
  ⟨rfl, rfl, by decide⟩

/-- C4 amended: when a chunk is committed at a cut, the next chunk starts
exactly max(0, cut − overlap_tokens) CHARACTERS before the cut; the tokenizer
plays no role in overlap sizing. -/
theorem c4_overlap_chars (tokLen : List Char → Nat) (t : List Char) (maxT ov : Nat) :
    List.Chain' (fun a b : Nat × Nat => b.1 = a.2 - ov) (chunkSpans tokLen t maxT ov) := by
  simp only [chunkSpans]
  cases collectBoundaries (clean_text t) with
  | nil =>
    show List.Chain' (fun a b : Nat × Nat => b.1 = a.2 - ov)
      (if 0 < (clean_text t).length then [(0, (clean_text t).length)] else [])
    split
    · exact List.chain'_singleton _
    · exact List.chain'_nil
  | cons b0 rest =>
    exact walkSpans_chain tokLen (clean_text t) maxT ov rest b0 0 0

/-- C9: the code disagrees with the claim — the HTTPException carrying the
upstream status and body is swallowed by each endpoint's blanket
`except Exception`, so the client always sees status 500 with a stringified
detail instead of the upstream status code. -/
theorem c9_proxy_error_evaluation :
    get_all_results (.ok ⟨404, "not found".data, .error "x".data⟩) =
      .error (500, "Error getting results: 404: not found".data) ∧
    get_all_targets (.ok ⟨503, "down".data, .error "x".data⟩) =
      .error (500, "Error getting targets: 503: down".data) ∧
    create_result (fun _ => []) (.ok ⟨409, "conflict".data, .error "bad".data⟩) =
      .error (500, "Error creating result: 409: API Error: conflict".data) ∧
    (500 : Nat) ≠ 404 :=
  ⟨rfl, rfl, rfl, by decide⟩

end Boingo


